import Mathlib

/-!
Shallow embedding of `dist/ba_root/mods/playersData/pdata.py` (player-data
store of the Bombsquad modded server): profiles, roles, custom effects/tags
and the whitelist, each backed by a JSON document plus the process-wide
`CacheData` cache.  Python dicts are modelled as ordered association lists
(`List (String × α)`) — a Python dict holds each key once, and iteration,
lookup and assignment below follow insertion order exactly as CPython does.
Stateful functions are modelled by explicit state passing; Python exceptions
(KeyError from `d[k]`, ValueError from `list.remove`, AttributeError from
calling `append` on a `str`) are modelled with `Except PyErr`.
-/

set_option autoImplicit false

namespace PData

/-- Python exceptions that the embedded code can raise. -/
inductive PyErr where
  | keyError (k : String)
  | valueError
  | attributeError
  deriving DecidableEq, Repr

universe u

variable {α : Type u}

/-- Python `k in d` for a dict `d`. -/
def dictMem (d : List (String × α)) (k : String) : Bool :=
  d.any (fun p => p.1 == k)

/-- Python `d[k]` returning `none` instead of raising KeyError: first
binding whose key matches. -/
def dictGet? : List (String × α) → String → Option α
  | [], _ => none
  | p :: rest, k => if p.1 == k then some p.2 else dictGet? rest k

/-- Python `d[k] = v`: replace the value in place when the key is present
(keeping its position), otherwise append the new binding at the end. -/
def dictSet (d : List (String × α)) (k : String) (v : α) : List (String × α) :=
  if dictMem d k then d.map (fun p => if p.1 == k then (k, v) else p)
  else d ++ [(k, v)]

theorem dictGet?_map_overwrite (d : List (String × α)) (k : String) (v : α)
    (h : dictMem d k = true) :
    dictGet? (d.map (fun q => if q.1 == k then (k, v) else q)) k = some v := by
  induction d with
  | nil => simp [dictMem] at h
  | cons p rest ih =>
    by_cases hp : (p.1 == k) = true
    · simp [dictGet?, hp]
    · have hp2 : (p.1 == k) = false := by simpa using hp
      have hrest : dictMem rest k = true := by simpa [dictMem, hp2] using h
      simpa [dictGet?, hp2] using ih hrest

theorem dictGet?_append_new (d : List (String × α)) (k : String) (v : α)
    (h : dictMem d k = false) :
    dictGet? (d ++ [(k, v)]) k = some v := by
  induction d with
  | nil => simp [dictGet?]
  | cons p rest ih =>
    simp only [dictMem, List.any_cons, Bool.or_eq_false_iff] at h
    simpa [dictGet?, h.1] using ih (by simp [dictMem, h.2])

theorem dictGet?_dictSet_self (d : List (String × α)) (k : String) (v : α) :
    dictGet? (dictSet d k v) k = some v := by
  unfold dictSet
  by_cases h : dictMem d k
  · rw [if_pos h]
    exact dictGet?_map_overwrite d k v h
  · rw [if_neg h]
    exact dictGet?_append_new d k v (by simpa using h)

theorem dictGet?_eq_none_of_not_mem (d : List (String × α)) (k : String)
    (h : dictMem d k = false) : dictGet? d k = none := by
  induction d with
  | nil => rfl
  | cons p rest ih =>
    simp only [dictMem, List.any_cons, Bool.or_eq_false_iff] at h
    simpa [dictGet?, h.1] using ih (by simp [dictMem, h.2])

/-! ## CustomStore (`get_custom`, `set_effect`, `set_tag`, `commit_c`)

`custom.json` is an object with the two sub-dicts `customeffects` and
`customtag`; the cache slot `CacheData.custom` starts as the empty dict `{}`
(modelled `none`) and the guard in `get_custom` is `CacheData.custom == {}`.
Every value this module ever stores in the slot carries both sub-dicts, so a
populated slot is never `== {}` again. -/

/-- The `custom.json` document (assumed well formed: both keys present, as
every write path of the module requires). -/
structure Custom where
  customeffects : List (String × String)
  customtag : List (String × String)
  deriving DecidableEq, Repr

/-- Process state of the custom store: the `CacheData.custom` slot and the
stored document. -/
structure CustomState where
  cache : Option Custom
  storage : Custom
  deriving DecidableEq, Repr

/-- `get_custom` (pdata.py 440–452): return the cache when populated,
otherwise load the document from storage — without writing it back. -/
def get_custom (s : CustomState) : Custom × CustomState :=
  match s.cache with
  | none => (s.storage, s)
  | some c => (c, s)

/-- `commit_c` (pdata.py 515–518): dump `CacheData.custom` to storage.  Every
caller populates the cache first; the unreachable `none` branch is modelled
as a no-op. -/
def commit_c (s : CustomState) : CustomState :=
  match s.cache with
  | some c => { s with storage := c }
  | none => s

/-- `set_effect` (pdata.py 455–468): `custom["customeffects"][accout_id] =
effect`, store into the cache, commit. -/
def set_effect (effect accout_id : String) (s : CustomState) : CustomState :=
  let gc := get_custom s
  let custom := { gc.1 with customeffects := dictSet gc.1.customeffects accout_id effect }
  commit_c { gc.2 with cache := some custom }

/-- `set_tag` (pdata.py 471–484): `custom["customtag"][account_id] = tag`,
store into the cache, commit. -/
def set_tag (tag account_id : String) (s : CustomState) : CustomState :=
  let gc := get_custom s
  let custom := { gc.1 with customtag := dictSet gc.1.customtag account_id tag }
  commit_c { gc.2 with cache := some custom }

/-- Iterated reads: perform `n` `get_custom` calls and return the final
state (each call may in principle change the process state). -/
def gcReads : Nat → CustomState → CustomState
  | 0, s => s
  | n + 1, s => gcReads n (get_custom s).2

theorem get_custom_state_id (s : CustomState) : (get_custom s).2 = s := by
  unfold get_custom
  cases s.cache <;> rfl

theorem gcReads_id (n : Nat) (s : CustomState) : gcReads n s = s := by
  induction n with
  | zero => rfl
  | succ n ih => simpa [gcReads, get_custom_state_id] using ih

/-- C1: with an unpopulated cache, `get_custom` loads the document from
storage and returns it without writing it back into the cache; the write
operations `set_effect` and `set_tag` do populate the cache, and after
either such write every subsequent `get_custom` call in the same process
returns the cached document reflecting that write (in `customeffects` for
`set_effect`, in `customtag` for `set_tag`). -/
theorem custom_cache_contract :
    (∀ doc : Custom, get_custom ⟨none, doc⟩ = (doc, ⟨none, doc⟩)) ∧
    (∀ s : CustomState, (get_custom s).2 = s) ∧
    (∀ (s : CustomState) (eff id : String), (set_effect eff id s).cache.isSome) ∧
    (∀ (s : CustomState) (tag id : String), (set_tag tag id s).cache.isSome) ∧
    (∀ (s : CustomState) (eff id : String) (n : Nat),
      dictGet? (get_custom (gcReads n (set_effect eff id s))).1.customeffects id =
        some eff) ∧
    (∀ (s : CustomState) (tag id : String) (n : Nat),
      dictGet? (get_custom (gcReads n (set_tag tag id s))).1.customtag id =
        some tag) := by
  refine ⟨fun doc => rfl, get_custom_state_id, ?_, ?_, ?_, ?_⟩
  · intro s eff id
    simp [set_effect, commit_c]
  · intro s tag id
    simp [set_tag, commit_c]
  · intro s eff id n
    rw [gcReads_id]
    simp [set_effect, commit_c, get_custom, dictGet?_dictSet_self]
  · intro s tag id n
    rw [gcReads_id]
    simp [set_tag, commit_c, get_custom, dictGet?_dictSet_self]

/-! ## RoleStore (`get_roles`, `commit_roles`, `create_role`,
`add_player_role`, `remove_player_role`, `add_command_role`,
`get_player_roles`, `update_toppers`)

`roles.json` maps role names to role records; `CacheData.roles` starts as
the empty dict `{}` and the guard in `get_roles` is `CacheData.roles == {}`,
so an empty cache (modelled `[]`) always re-reads storage. -/

/-- A role record as created by `create_role`: tag, tag color, command list
and member-id list. -/
structure Role where
  tag : String
  tagcolor : List Nat
  commands : List String
  ids : List String
  deriving DecidableEq, Repr

/-- Process state of the role store: the `CacheData.roles` slot (the empty
dict `{}` is `[]`) and the `roles.json` document. -/
structure RolesState where
  cache : List (String × Role)
  storage : List (String × Role)
  deriving DecidableEq, Repr

/-- Python `list.remove(x)`: drop the first occurrence of `x`, raising
ValueError when `x` is absent. -/
def pyRemove (xs : List String) (x : String) : Except PyErr (List String) :=
  if xs.contains x then .ok (xs.erase x) else .error .valueError

/-- `get_roles` (pdata.py 259–272): if the cache is the empty dict, load the
document from storage, store it into the cache and return it; otherwise
return the cache. -/
def get_roles (s : RolesState) : List (String × Role) × RolesState :=
  if s.cache = [] then (s.storage, { s with cache := s.storage })
  else (s.cache, s)

/-- `commit_roles` (pdata.py 244–256): write the given table to storage,
skipping the write when the table is empty (`if not data: return`). -/
def commit_roles (data : List (String × Role)) (s : RolesState) : RolesState :=
  if data = [] then s else { s with storage := data }

/-- `create_role` (pdata.py 275–295): no-op when the role exists; otherwise
insert a role with defaults (tag = name, white color, empty command and
member lists), update the cache and persist. -/
def create_role (role : String) (s : RolesState) : RolesState :=
  let gr := get_roles s
  if dictMem gr.1 role then gr.2
  else
    let roles := dictSet gr.1 role { tag := role, tagcolor := [1, 1, 1], commands := [], ids := [] }
    commit_roles roles { gr.2 with cache := roles }

/-- `add_player_role` (pdata.py 298–317): when the role exists and the id is
not yet a member, append it, update the cache and persist; when the role
exists and the id is already a member, do nothing; when the role is unknown,
only print a message. -/
def add_player_role (role account_id : String) (s : RolesState) : RolesState :=
  let gr := get_roles s
  match dictGet? gr.1 role with
  | some r =>
    if r.ids.contains account_id then gr.2
    else
      let roles := dictSet gr.1 role { r with ids := r.ids ++ [account_id] }
      commit_roles roles { gr.2 with cache := roles }
  | none => gr.2

/-- `remove_player_role` (pdata.py 320–341): when the role exists, remove
the id from its member list with Python's `list.remove` (which raises
ValueError when the id is not a member), update the cache, persist and
return a success status; when the role is unknown, return a not-found
status. -/
def remove_player_role (role account_id : String) (s : RolesState) :
    Except PyErr (String × RolesState) :=
  let gr := get_roles s
  match dictGet? gr.1 role with
  | some r =>
    (pyRemove r.ids account_id).map (fun ids1 =>
      let roles := dictSet gr.1 role { r with ids := ids1 }
      ("removed from " ++ role, commit_roles roles { gr.2 with cache := roles }))
  | none => .ok ("role not exists", gr.2)

/-- `add_command_role` (pdata.py 344–366): when the role exists and the
command is absent, append it, update the cache, persist and return the
success status; otherwise fall through to the shared final status string
(returned both for an unknown role and for an already-present command). -/
def add_command_role (role command : String) (s : RolesState) : String × RolesState :=
  let gr := get_roles s
  match dictGet? gr.1 role with
  | some r =>
    if r.commands.contains command then ("command not exists", gr.2)
    else
      let roles := dictSet gr.1 role { r with commands := r.commands ++ [command] }
      ("command added to " ++ role, commit_roles roles { gr.2 with cache := roles })
  | none => ("command not exists", gr.2)

/-- `get_player_roles` (pdata.py 418–437): iterate the role table in
insertion order, collecting the names of roles whose member list contains
the account id. -/
def get_player_roles (account_id : String) (s : RolesState) : List String × RolesState :=
  let gr := get_roles s
  (gr.1.foldl (fun have_roles p =>
    if p.2.ids.contains account_id then have_roles ++ [p.1] else have_roles) [], gr.2)

/-- `update_toppers` (pdata.py 521–533): ensure the reserved "top5" role
exists, assign `topper_list` to `CacheData.roles["top5"]["ids"]`, then call
`commit_roles(roles)` on the local variable `roles`.  In CPython that local
aliases `CacheData.roles` — except when both the cache and the stored table
were empty: then `create_role` re-loads a fresh dict into the cache and the
stale local is still the empty dict, so the final commit is skipped
(`commit_roles` ignores an empty table). -/
def update_toppers (topper_list : List String) (s : RolesState) : RolesState :=
  let gr := get_roles s
  let s2 := if dictMem gr.1 "top5" then gr.2 else create_role "top5" gr.2
  let cache3 :=
    match dictGet? s2.cache "top5" with
    | some r => dictSet s2.cache "top5" { r with ids := topper_list }
    | none => s2.cache
  let s3 := { s2 with cache := cache3 }
  if gr.1 = [] then s3 else commit_roles cache3 s3

theorem dictMem_of_get?_some {d : List (String × α)} {k : String} {r : α}
    (h : dictGet? d k = some r) : dictMem d k = true := by
  induction d with
  | nil => simp [dictGet?] at h
  | cons p rest ih =>
    by_cases hp : (p.1 == k) = true
    · simp [dictMem, hp]
    · have hp2 : (p.1 == k) = false := by simpa using hp
      simp only [dictGet?, hp2, Bool.false_eq_true, if_false] at h
      have := ih h
      simp only [dictMem, List.any_cons, hp2, Bool.false_or]
      simpa [dictMem] using this

theorem dictGet?_some_of_mem {d : List (String × α)} {k : String}
    (h : dictMem d k = true) : ∃ r, dictGet? d k = some r := by
  induction d with
  | nil => simp [dictMem] at h
  | cons p rest ih =>
    by_cases hp : (p.1 == k) = true
    · exact ⟨p.2, by simp [dictGet?, hp]⟩
    · have hp2 : (p.1 == k) = false := by simpa using hp
      have hrest : dictMem rest k = true := by simpa [dictMem, hp2] using h
      obtain ⟨r, hr⟩ := ih hrest
      exact ⟨r, by simpa [dictGet?, hp2] using hr⟩

theorem exists_entry_of_dictGet?_some {d : List (String × α)} {k : String} {r : α}
    (h : dictGet? d k = some r) : ∃ k1, (k1, r) ∈ d := by
  induction d with
  | nil => simp [dictGet?] at h
  | cons p rest ih =>
    by_cases hp : (p.1 == k) = true
    · simp only [dictGet?, hp, if_true, Option.some.injEq] at h
      exact ⟨p.1, by rw [← h]; simp⟩
    · have hp2 : (p.1 == k) = false := by simpa using hp
      simp only [dictGet?, hp2, Bool.false_eq_true, if_false] at h
      obtain ⟨k1, hk1⟩ := ih h
      exact ⟨k1, by simp [hk1]⟩

theorem dictSet_ne_nil (d : List (String × α)) (k : String) (v : α) :
    dictSet d k v ≠ [] := by
  by_cases h : dictMem d k
  · rw [dictSet, if_pos h]
    cases d with
    | nil => simp [dictMem] at h
    | cons p rest => simp
  · rw [dictSet, if_neg h]
    simp

theorem dictMem_nil (k : String) : dictMem ([] : List (String × α)) k = false := rfl

/-- `get_roles` leaves its returned table in the cache. -/
theorem get_roles_cache_eq (s : RolesState) : ((get_roles s).2).cache = (get_roles s).1 := by
  unfold get_roles
  split <;> rfl

theorem get_roles_storage (s : RolesState) : ((get_roles s).2).storage = s.storage := by
  unfold get_roles
  split <;> rfl

theorem get_roles_view (s : RolesState) :
    (get_roles ((get_roles s).2)).1 = (get_roles s).1 := by
  unfold get_roles
  by_cases h : s.cache = []
  · simp only [h, if_true]
    by_cases h2 : s.storage = [] <;> simp [h2]
  · simp [h]

/-- C3: removing a member from an existing role with `remove_player_role`
removes the id and returns the success status; an unknown role yields the
not-found status and leaves the observable state unchanged; an existing role
without that member propagates the raw ValueError of `list.remove` instead
of returning a status. -/
theorem remove_player_role_cases (s : RolesState) (role account_id : String) :
    (dictMem (get_roles s).1 role = false →
      remove_player_role role account_id s =
        .ok ("role not exists", (get_roles s).2) ∧
      ((get_roles s).2).storage = s.storage ∧
      (get_roles ((get_roles s).2)).1 = (get_roles s).1) ∧
    (∀ r : Role, dictGet? (get_roles s).1 role = some r →
      r.ids.contains account_id = true →
      ∃ s2 : RolesState,
        remove_player_role role account_id s =
          .ok ("removed from " ++ role, s2) ∧
        dictGet? s2.cache role = some { r with ids := r.ids.erase account_id } ∧
        s2.storage = s2.cache) ∧
    (∀ r : Role, dictGet? (get_roles s).1 role = some r →
      r.ids.contains account_id = false →
      remove_player_role role account_id s = .error .valueError) := by
  refine ⟨?_, ?_, ?_⟩
  · intro h
    have hg : dictGet? (get_roles s).1 role = none := dictGet?_eq_none_of_not_mem _ _ h
    refine ⟨?_, get_roles_storage s, get_roles_view s⟩
    simp only [remove_player_role, hg]
  · intro r hr hmem
    have hne := dictSet_ne_nil (get_roles s).1 role { r with ids := r.ids.erase account_id }
    refine ⟨commit_roles (dictSet (get_roles s).1 role { r with ids := r.ids.erase account_id })
      { cache := dictSet (get_roles s).1 role { r with ids := r.ids.erase account_id },
        storage := ((get_roles s).2).storage }, ?_, ?_, ?_⟩
    · simp only [remove_player_role, hr, pyRemove, hmem, if_true, Except.map]
    · simp only [commit_roles, if_neg hne]
      exact dictGet?_dictSet_self _ _ _
    · simp only [commit_roles, if_neg hne]
  · intro r hr hmem
    simp only [remove_player_role, hr, pyRemove, hmem, Bool.false_eq_true, if_false, Except.map]

theorem remove_player_role_cases_witness :
    (dictMem (get_roles ⟨[("mods", ⟨"mods", [1, 1, 1], [], ["p1"]⟩)], []⟩).1 "fake" = false ∧
      remove_player_role "fake" "p1" ⟨[("mods", ⟨"mods", [1, 1, 1], [], ["p1"]⟩)], []⟩ =
        .ok ("role not exists", (get_roles ⟨[("mods", ⟨"mods", [1, 1, 1], [], ["p1"]⟩)], []⟩).2)) ∧
    (∃ s2 : RolesState,
      remove_player_role "mods" "p1" ⟨[("mods", ⟨"mods", [1, 1, 1], [], ["p1"]⟩)], []⟩ =
        .ok ("removed from " ++ "mods", s2) ∧
      dictGet? s2.cache "mods" = some ⟨"mods", [1, 1, 1], [], []⟩ ∧
      s2.storage = s2.cache) ∧
    remove_player_role "mods" "zz" ⟨[("mods", ⟨"mods", [1, 1, 1], [], ["p1"]⟩)], []⟩ =
      .error .valueError := by
  have h := remove_player_role_cases ⟨[("mods", ⟨"mods", [1, 1, 1], [], ["p1"]⟩)], []⟩
  refine ⟨⟨by decide, ((h "fake" "p1").1 (by decide)).1⟩, ?_, ?_⟩
  · have h2 := (h "mods" "p1").2.1 ⟨"mods", [1, 1, 1], [], ["p1"]⟩ (by decide) (by decide)
    obtain ⟨s2, e1, e2, e3⟩ := h2
    exact ⟨s2, e1, by simpa using e2, e3⟩
  · exact (h "mods" "zz").2.2 ⟨"mods", [1, 1, 1], [], ["p1"]⟩ (by decide) (by decide)

/-- C4: `add_command_role` appends the command and reports success exactly
when the role exists and the command is absent; an unknown role and an
already-present command both fall through to the same final status string,
with the observable state unchanged. -/
theorem add_command_role_cases (s : RolesState) (role command : String) :
    (dictMem (get_roles s).1 role = false →
      add_command_role role command s = ("command not exists", (get_roles s).2) ∧
      ((get_roles s).2).storage = s.storage ∧
      (get_roles ((get_roles s).2)).1 = (get_roles s).1) ∧
    (∀ r : Role, dictGet? (get_roles s).1 role = some r →
      r.commands.contains command = true →
      add_command_role role command s = ("command not exists", (get_roles s).2) ∧
      ((get_roles s).2).storage = s.storage ∧
      (get_roles ((get_roles s).2)).1 = (get_roles s).1) ∧
    (∀ r : Role, dictGet? (get_roles s).1 role = some r →
      r.commands.contains command = false →
      (add_command_role role command s).1 = "command added to " ++ role ∧
      dictGet? ((add_command_role role command s).2).cache role =
        some { r with commands := r.commands ++ [command] } ∧
      ((add_command_role role command s).2).storage =
        ((add_command_role role command s).2).cache) := by
  refine ⟨?_, ?_, ?_⟩
  · intro h
    have hg : dictGet? (get_roles s).1 role = none := dictGet?_eq_none_of_not_mem _ _ h
    refine ⟨?_, get_roles_storage s, get_roles_view s⟩
    simp only [add_command_role, hg]
  · intro r hr hmem
    refine ⟨?_, get_roles_storage s, get_roles_view s⟩
    simp only [add_command_role, hr, hmem, if_true]
  · intro r hr hmem
    have hne := dictSet_ne_nil (get_roles s).1 role { r with commands := r.commands ++ [command] }
    simp only [add_command_role, hr, hmem, Bool.false_eq_true, if_false, commit_roles, if_neg hne]
    exact ⟨trivial, dictGet?_dictSet_self _ _ _, trivial⟩

theorem add_command_role_cases_witness :
    (add_command_role "fake" "kick" ⟨[("mods", ⟨"mods", [1, 1, 1], [], []⟩)], []⟩ =
      ("command not exists", (get_roles ⟨[("mods", ⟨"mods", [1, 1, 1], [], []⟩)], []⟩).2)) ∧
    (add_command_role "mods" "kick" ⟨[("mods", ⟨"mods", [1, 1, 1], ["kick"], []⟩)], []⟩ =
      ("command not exists", (get_roles ⟨[("mods", ⟨"mods", [1, 1, 1], ["kick"], []⟩)], []⟩).2)) ∧
    ((add_command_role "mods" "kick" ⟨[("mods", ⟨"mods", [1, 1, 1], [], []⟩)], []⟩).1 =
      "command added to " ++ "mods" ∧
     dictGet? ((add_command_role "mods" "kick"
        ⟨[("mods", ⟨"mods", [1, 1, 1], [], []⟩)], []⟩).2).cache "mods" =
      some ⟨"mods", [1, 1, 1], ["kick"], []⟩) := by
  refine ⟨((add_command_role_cases ⟨[("mods", ⟨"mods", [1, 1, 1], [], []⟩)], []⟩
      "fake" "kick").1 (by decide)).1, ?_, ?_⟩
  · exact ((add_command_role_cases ⟨[("mods", ⟨"mods", [1, 1, 1], ["kick"], []⟩)], []⟩
      "mods" "kick").2.1 ⟨"mods", [1, 1, 1], ["kick"], []⟩ (by decide) (by decide)).1
  · have h := (add_command_role_cases ⟨[("mods", ⟨"mods", [1, 1, 1], [], []⟩)], []⟩
      "mods" "kick").2.2 ⟨"mods", [1, 1, 1], [], []⟩ (by decide) (by decide)
    exact ⟨h.1, by simpa using h.2.1⟩

/-! ## Member-set duplicate-freedom (C7) -/

/-- Every role in the table has a duplicate-free member-id list. -/
def idsNodup (t : List (String × Role)) : Prop :=
  ∀ p ∈ t, p.2.ids.Nodup

instance idsNodupDecidable (t : List (String × Role)) : Decidable (idsNodup t) :=
  inferInstanceAs (Decidable (∀ p ∈ t, p.2.ids.Nodup))

theorem nodup_append_singleton {l : List String} {a : String}
    (h : l.Nodup) (ha : l.contains a = false) : (l ++ [a]).Nodup := by
  have hnm : a ∉ l := by simpa using ha
  simp [List.nodup_append, h, hnm]

theorem idsNodup_dictSet {d : List (String × Role)} {k : String} {r : Role}
    (h : idsNodup d) (hr : r.ids.Nodup) : idsNodup (dictSet d k r) := by
  unfold dictSet
  by_cases hm : dictMem d k
  · rw [if_pos hm]
    intro p hp
    obtain ⟨q, hq, hfq⟩ := List.mem_map.1 hp
    by_cases hqk : (q.1 == k) = true
    · rw [← hfq]
      simpa [hqk] using hr
    · have hqk2 : (q.1 == k) = false := by simpa using hqk
      rw [← hfq]
      simpa [hqk2] using h q hq
  · rw [if_neg hm]
    intro p hp
    rcases List.mem_append.1 hp with h1 | h1
    · exact h p h1
    · have : p = (k, r) := by simpa using h1
      rw [this]
      exact hr

theorem idsNodup_get_roles_fst {s : RolesState}
    (h1 : idsNodup s.cache) (h2 : idsNodup s.storage) : idsNodup (get_roles s).1 := by
  unfold get_roles
  split
  · exact h2
  · exact h1

theorem idsNodup_get_roles_snd {s : RolesState}
    (h1 : idsNodup s.cache) (h2 : idsNodup s.storage) :
    idsNodup ((get_roles s).2).cache ∧ idsNodup ((get_roles s).2).storage := by
  unfold get_roles
  split
  · exact ⟨h2, h2⟩
  · exact ⟨h1, h2⟩

theorem add_player_role_preserves (role account_id : String) (s : RolesState)
    (h1 : idsNodup s.cache) (h2 : idsNodup s.storage) :
    idsNodup (add_player_role role account_id s).cache ∧
    idsNodup (add_player_role role account_id s).storage := by
  have hfst := idsNodup_get_roles_fst h1 h2
  have hsnd := idsNodup_get_roles_snd h1 h2
  cases hg : dictGet? (get_roles s).1 role with
  | none =>
    simp only [add_player_role, hg]
    exact hsnd
  | some r =>
    by_cases hmem : r.ids.contains account_id = true
    · simp only [add_player_role, hg, hmem, if_true]
      exact hsnd
    · have hmem2 : r.ids.contains account_id = false := by simpa using hmem
      have hrn : r.ids.Nodup := by
        obtain ⟨k1, hk1⟩ := exists_entry_of_dictGet?_some hg
        exact hfst (k1, r) hk1
      have hnew : ({ r with ids := r.ids ++ [account_id] } : Role).ids.Nodup :=
        nodup_append_singleton hrn hmem2
      have hset : idsNodup (dictSet (get_roles s).1 role
          { r with ids := r.ids ++ [account_id] }) :=
        idsNodup_dictSet hfst hnew
      simp only [add_player_role, hg, hmem2, Bool.false_eq_true, if_false, commit_roles]
      split
      · exact ⟨hset, hsnd.2⟩
      · exact ⟨hset, hset⟩

/-- A finite sequence of `add_player_role` calls, applied left to right. -/
def addMemberSeq (ops : List (String × String)) (s : RolesState) : RolesState :=
  ops.foldl (fun st p => add_player_role p.1 p.2 st) s

/-- C7: for every finite sequence of `add_player_role` calls applied to a
starting state whose member lists (cached and stored) are duplicate-free,
every role's resulting member list is duplicate-free, however often the same
pair is added. -/
theorem add_player_role_nodup_invariant (ops : List (String × String)) (s : RolesState)
    (h1 : idsNodup s.cache) (h2 : idsNodup s.storage) :
    idsNodup (addMemberSeq ops s).cache ∧ idsNodup (addMemberSeq ops s).storage := by
  induction ops generalizing s with
  | nil => exact ⟨h1, h2⟩
  | cons op rest ih =>
    have h := add_player_role_preserves op.1 op.2 s h1 h2
    simpa [addMemberSeq, List.foldl_cons] using ih _ h.1 h.2

theorem add_player_role_nodup_invariant_witness :
    idsNodup (addMemberSeq [("mods", "p1"), ("mods", "p1"), ("mods", "p2"), ("mods", "p1")]
      ⟨[("mods", ⟨"mods", [1, 1, 1], [], []⟩)], []⟩).cache ∧
    idsNodup (addMemberSeq [("mods", "p1"), ("mods", "p1"), ("mods", "p2"), ("mods", "p1")]
      ⟨[("mods", ⟨"mods", [1, 1, 1], [], []⟩)], []⟩).storage :=
  add_player_role_nodup_invariant _ _ (by decide) (by decide)

/-! ## `get_player_roles` (C8) -/

theorem collect_foldl (account_id : String) (l : List (String × Role)) :
    ∀ acc : List String,
      l.foldl (fun have_roles p =>
        if p.2.ids.contains account_id then have_roles ++ [p.1] else have_roles) acc =
      acc ++ (l.filter (fun p => p.2.ids.contains account_id)).map Prod.fst := by
  induction l with
  | nil => intro acc; simp
  | cons p rest ih =>
    intro acc
    by_cases hp : p.2.ids.contains account_id = true
    · simp only [List.foldl_cons, List.filter_cons, hp, eq_self_iff_true, if_true,
        List.map_cons]
      rw [ih]
      simp
    · have hp2 : p.2.ids.contains account_id = false := by simpa using hp
      simp only [List.foldl_cons, List.filter_cons, hp2, Bool.false_eq_true, if_false]
      exact ih acc

/-- C8: `get_player_roles` returns exactly the names of the roles whose
member list contains the account id, in the role table's iteration
(insertion) order, and changes nothing observable: the stored table and the
table seen by the next `get_roles` are unchanged. -/
theorem get_player_roles_spec (account_id : String) (s : RolesState) :
    (get_player_roles account_id s).1 =
      ((get_roles s).1.filter (fun p => p.2.ids.contains account_id)).map Prod.fst ∧
    ((get_player_roles account_id s).2).storage = s.storage ∧
    (get_roles ((get_player_roles account_id s).2)).1 = (get_roles s).1 := by
  refine ⟨?_, ?_, ?_⟩
  · simp only [get_player_roles]
    simpa using collect_foldl account_id (get_roles s).1 []
  · simp only [get_player_roles]
    exact get_roles_storage s
  · simp only [get_player_roles]
    exact get_roles_view s

/-! ## `update_toppers` (C5) -/

theorem commit_roles_cache (d : List (String × Role)) (s : RolesState) :
    (commit_roles d s).cache = s.cache := by
  unfold commit_roles
  split <;> rfl

theorem dictMem_dictSet_self (d : List (String × α)) (k : String) (v : α) :
    dictMem (dictSet d k v) k = true :=
  dictMem_of_get?_some (dictGet?_dictSet_self d k v)

theorem create_role_cache_mem (role : String) (s : RolesState) :
    dictMem (create_role role s).cache role = true := by
  simp only [create_role]
  by_cases hm : dictMem (get_roles s).1 role = true
  · rw [if_pos hm, get_roles_cache_eq]
    exact hm
  · rw [if_neg hm, commit_roles_cache]
    exact dictMem_dictSet_self _ _ _

theorem ut_ensure_mem (s : RolesState) :
    dictMem (if dictMem (get_roles s).1 "top5" = true then (get_roles s).2
      else create_role "top5" (get_roles s).2).cache "top5" = true := by
  by_cases hm : dictMem (get_roles s).1 "top5" = true
  · rw [if_pos hm, get_roles_cache_eq]
    exact hm
  · rw [if_neg hm]
    exact create_role_cache_mem _ _

theorem ut_cache_get (s : RolesState) (tl : List String) :
    (dictGet? (update_toppers tl s).cache "top5").map Role.ids = some tl := by
  obtain ⟨r, hr⟩ := dictGet?_some_of_mem (ut_ensure_mem s)
  simp only [update_toppers, hr]
  by_cases h0 : (get_roles s).1 = []
  · simp [h0, dictGet?_dictSet_self]
  · simp [h0, commit_roles_cache, dictGet?_dictSet_self]

theorem ut_persist (s : RolesState) (tl : List String)
    (hne : (get_roles s).1 ≠ []) :
    (update_toppers tl s).storage = (update_toppers tl s).cache := by
  obtain ⟨r, hr⟩ := dictGet?_some_of_mem (ut_ensure_mem s)
  have hne3 := dictSet_ne_nil (if dictMem (get_roles s).1 "top5" = true then (get_roles s).2
      else create_role "top5" (get_roles s).2).cache "top5" { r with ids := tl }
  simp only [update_toppers, hr, if_neg hne, commit_roles, if_neg hne3]

theorem ut_cache_ne_nil (s : RolesState) (tl : List String) :
    (update_toppers tl s).cache ≠ [] := by
  intro h0
  have h1 := ut_cache_get s tl
  rw [h0] at h1
  simp [dictGet?] at h1

/-- C5 (amended): `update_toppers` ensures the "top5" role exists and
replaces its member list in the live (cached) role table with exactly the
given list; the updated table is persisted whenever the role table observed
at entry is non-empty (when both the cache and the stored table are empty,
only the freshly created "top5" role with an empty member list reaches
storage); a second identical call is idempotent and leaves both the cached
and the persisted "top5" member list exactly equal to the given list. -/
theorem update_toppers_behavior (s : RolesState) (tl : List String) :
    (dictGet? (update_toppers tl s).cache "top5").map Role.ids = some tl ∧
    ((get_roles s).1 ≠ [] →
      (update_toppers tl s).storage = (update_toppers tl s).cache) ∧
    (dictGet? (update_toppers tl (update_toppers tl s)).cache "top5").map Role.ids =
      some tl ∧
    (dictGet? (update_toppers tl (update_toppers tl s)).storage "top5").map Role.ids =
      some tl := by
  refine ⟨ut_cache_get s tl, ut_persist s tl, ut_cache_get _ tl, ?_⟩
  have hcne := ut_cache_ne_nil s tl
  have hview : (get_roles (update_toppers tl s)).1 = (update_toppers tl s).cache := by
    unfold get_roles
    rw [if_neg hcne]
  have hp := ut_persist (update_toppers tl s) tl (by rw [hview]; exact hcne)
  rw [hp]
  exact ut_cache_get _ tl

theorem update_toppers_behavior_witness :
    (dictGet? (update_toppers ["a", "b"]
      ⟨[("mods", ⟨"mods", [1, 1, 1], [], []⟩)], []⟩).cache "top5").map Role.ids =
        some ["a", "b"] ∧
    (get_roles (⟨[("mods", ⟨"mods", [1, 1, 1], [], []⟩)], []⟩ : RolesState)).1 ≠ [] ∧
    (update_toppers ["a", "b"] ⟨[("mods", ⟨"mods", [1, 1, 1], [], []⟩)], []⟩).storage =
      (update_toppers ["a", "b"] ⟨[("mods", ⟨"mods", [1, 1, 1], [], []⟩)], []⟩).cache := by
  have h := update_toppers_behavior ⟨[("mods", ⟨"mods", [1, 1, 1], [], []⟩)], []⟩ ["a", "b"]
  exact ⟨h.1, by decide, h.2.1 (by decide)⟩

/-- C5 (counterexample to the claim as stated): starting from an empty cache
over an empty stored role table, `update_toppers ["a"]` persists the "top5"
role with an EMPTY member list — the replacement by `["a"]` reaches only the
cache, because the stale local `roles` dict is empty and the final
`commit_roles` call skips it. -/
theorem update_toppers_unpersisted_when_empty :
    (dictGet? (update_toppers ["a"] (⟨[], []⟩ : RolesState)).storage "top5").map Role.ids =
      some [] ∧
    (dictGet? (update_toppers ["a"] (⟨[], []⟩ : RolesState)).storage "top5").map Role.ids ≠
      some ["a"] ∧
    (dictGet? (update_toppers ["a"] (⟨[], []⟩ : RolesState)).cache "top5").map Role.ids =
      some ["a"] := by
  refine ⟨by decide, by decide, by decide⟩

/-! ## ProfileStore (`get_info`, `add_profile`, `update_display_string`,
`update_profile`)

`profiles.json` maps account ids to profile records.  The profile store has
no cache: every operation loads the document fresh and commits it back, so
it is modelled as pure document transformations.  `add_profile` stores the
display string as a plain string while `update_profile` appends to the same
field as if it were a list, so the field is modelled by the sum `DSVal`. -/

/-- The value stored under the `display_string` key: a plain string (as
written by `add_profile` and `update_display_string`) or a list of strings
(as assumed by `update_profile`). -/
inductive DSVal where
  | str (s : String)
  | list (xs : List String)
  deriving DecidableEq, Repr

/-- A profile record, with the fields `add_profile` creates. -/
structure Profile where
  display_string : DSVal
  profiles : List String
  name : String
  isBan : Bool
  isMuted : Bool
  accountAge : Int
  registerOn : Nat
  canStartKickVote : Bool
  spamCount : Int
  lastSpam : Nat
  totaltimeplayer : Int
  lastseen : Int
  deriving DecidableEq, Repr

abbrev ProfilesDoc := List (String × Profile)

/-- The live-session record `add_profile` inserts into `serverdata.clients`:
the profile fields plus the registry-only keys. -/
structure ClientRecord where
  profile : Profile
  warnCount : Nat
  lastWarned : Nat
  verified : Bool
  rejoincount : Nat
  lastJoin : Nat
  deriving DecidableEq, Repr

/-- `get_info` (pdata.py 36–53): fresh load of `profiles.json`, return the
entry for the account or None. -/
def get_info (account_id : String) (profiles : ProfilesDoc) : Option Profile :=
  dictGet? profiles account_id

/-- `add_profile` (pdata.py 81–123): insert a fresh profile with the listed
defaults, commit the document, then seed the `serverdata.clients` registry
entry.  `time.time()` is passed in as `now`.  (In CPython the registry entry
aliases the in-memory profile dict, but the registry-only keys are added
after the commit, so the committed document is exactly as modelled.) -/
def add_profile (account_id display_string current_name : String)
    (account_age : Int) (now : Nat) (profiles : ProfilesDoc)
    (clients : List (String × ClientRecord)) :
    ProfilesDoc × List (String × ClientRecord) :=
  let newp : Profile :=
    { display_string := .str display_string
      profiles := []
      name := current_name
      isBan := false
      isMuted := false
      accountAge := account_age
      registerOn := now
      canStartKickVote := true
      spamCount := 0
      lastSpam := now
      totaltimeplayer := 0
      lastseen := 0 }
  (dictSet profiles account_id newp,
    dictSet clients account_id
      { profile := newp, warnCount := 0, lastWarned := now, verified := false,
        rejoincount := 1, lastJoin := now })

/-- `update_display_string` (pdata.py 126–139): when the account exists,
assign (overwrite) its `display_string` field with the new string and
commit; otherwise do nothing (the fresh load is discarded uncommitted, so
the stored document is the returned one either way). -/
def update_display_string (account_id display_string : String)
    (profiles : ProfilesDoc) : ProfilesDoc :=
  match dictGet? profiles account_id with
  | some r => dictSet profiles account_id { r with display_string := .str display_string }
  | none => profiles

/-- Python `needle in hay` on strings: substring test. -/
def hasSubChars (needle : List Char) : List Char → Bool
  | [] => needle.isEmpty
  | b :: bs => needle.isPrefixOf (b :: bs) || hasSubChars needle bs

def pyStrIn (needle hay : String) : Bool :=
  hasSubChars needle.data hay.data

/-- Python `needle in field` where the field is a str (substring test) or a
list (membership). -/
def dsContains (needle : String) : DSVal → Bool
  | .str s0 => pyStrIn needle s0
  | .list xs => xs.contains needle

/-- Python `field.append(x)`: AttributeError on a str, append on a list. -/
def dsAppend (x : String) : DSVal → Except PyErr DSVal
  | .str _ => .error .attributeError
  | .list xs => .ok (.list (xs ++ [x]))

/-- First statement of `update_profile` (pdata.py 167–169): guarded by
`account_id in profiles and display_string is not None`. -/
def upDisplay (account_id : String) (display_string : Option String)
    (profiles : ProfilesDoc) : Except PyErr ProfilesDoc :=
  match display_string, dictGet? profiles account_id with
  | some ds, some r =>
    if dsContains ds r.display_string then .ok profiles
    else
      match dsAppend ds r.display_string with
      | .error e => .error e
      | .ok d => .ok (dictSet profiles account_id { r with display_string := d })
  | _, _ => .ok profiles

/-- Loop of `update_profile` (pdata.py 171–174): each iteration indexes
`profiles[account_id]` unguarded, raising KeyError when the account is
absent. -/
def upProfilesLoop (account_id : String) :
    List String → ProfilesDoc → Except PyErr ProfilesDoc
  | [], prof => .ok prof
  | q :: qs, prof =>
    match dictGet? prof account_id with
    | none => .error (.keyError account_id)
    | some r =>
      upProfilesLoop account_id qs
        (if r.profiles.contains q then prof
         else dictSet prof account_id { r with profiles := r.profiles ++ [q] })

def upAllProfiles (account_id : String) (allprofiles : Option (List String))
    (profiles : ProfilesDoc) : Except PyErr ProfilesDoc :=
  match allprofiles with
  | none => .ok profiles
  | some ps => upProfilesLoop account_id ps profiles

/-- Third statement of `update_profile` (pdata.py 176–177): unguarded
`profiles[account_id]["name"] = name`. -/
def upName (account_id : String) (name : Option String)
    (profiles : ProfilesDoc) : Except PyErr ProfilesDoc :=
  match name with
  | none => .ok profiles
  | some nm =>
    match dictGet? profiles account_id with
    | none => .error (.keyError account_id)
    | some r => .ok (dictSet profiles account_id { r with name := nm })

/-- `update_profile` (pdata.py 142–179): no-op when the document failed to
load (`profiles is None`); otherwise run the three conditional updates in
sequence, propagating any raised exception, and commit. -/
def update_profile (account_id : String) (display_string : Option String)
    (allprofiles : Option (List String)) (name : Option String)
    (doc : Option ProfilesDoc) : Except PyErr (Option ProfilesDoc) :=
  match doc with
  | none => .ok none
  | some profiles0 =>
    match upDisplay account_id display_string profiles0 with
    | .error e => .error e
    | .ok profiles1 =>
      match upAllProfiles account_id allprofiles profiles1 with
      | .error e => .error e
      | .ok profiles2 =>
        match upName account_id name profiles2 with
        | .error e => .error e
        | .ok profiles3 => .ok (some profiles3)

/-- A concrete stored profile used by the closed witnesses below. -/
def exProfile : Profile :=
  { display_string := .list ["old"]
    profiles := []
    name := "n"
    isBan := false
    isMuted := false
    accountAge := 0
    registerOn := 0
    canStartKickVote := true
    spamCount := 0
    lastSpam := 0
    totaltimeplayer := 0
    lastseen := 0 }

def exDoc : ProfilesDoc := [("p1", exProfile)]

/-- C2 (counterexample to the claim as stated): with a recorded display
history `["old"]`, `update_display_string` leaves the field equal to the
plain string `"new"` — the previous entry is not preserved and nothing was
appended. -/
theorem update_display_string_not_append :
    (dictGet? (update_display_string "p1" "new" exDoc) "p1").map Profile.display_string =
      some (.str "new") ∧
    (dictGet? (update_display_string "p1" "new" exDoc) "p1").map Profile.display_string ≠
      some (.list ["old", "new"]) := by
  exact ⟨by decide, by decide⟩

/-- C2 (amended): for an account present in the document,
`update_display_string` overwrites the `display_string` field with the new
string (discarding whatever was recorded before) and persists the result;
for an absent account it is a no-op. -/
theorem update_display_string_overwrites (profiles : ProfilesDoc)
    (account_id ds : String) :
    (∀ r : Profile, dictGet? profiles account_id = some r →
      update_display_string account_id ds profiles =
        dictSet profiles account_id { r with display_string := .str ds }) ∧
    (dictGet? profiles account_id = none →
      update_display_string account_id ds profiles = profiles) := by
  constructor
  · intro r hr
    simp only [update_display_string, hr]
  · intro hr
    simp only [update_display_string, hr]

theorem update_display_string_overwrites_witness :
    (dictGet? exDoc "p1" = some exProfile ∧
      update_display_string "p1" "new" exDoc =
        dictSet exDoc "p1" { exProfile with display_string := .str "new" }) ∧
    (dictGet? exDoc "zz" = none ∧
      update_display_string "zz" "new" exDoc = exDoc) := by
  refine ⟨⟨by decide, ?_⟩, ⟨by decide, ?_⟩⟩
  · exact (update_display_string_overwrites exDoc "p1" "new").1 exProfile (by decide)
  · exact (update_display_string_overwrites exDoc "zz" "new").2 (by decide)

/-- C6: creating a profile and immediately reading it back yields a profile
with `isBan` and `isMuted` false, `canStartKickVote` true and `spamCount`
zero. -/
theorem add_profile_defaults_roundtrip (profiles : ProfilesDoc)
    (clients : List (String × ClientRecord))
    (account_id display_string current_name : String)
    (account_age : Int) (now : Nat) :
    ∃ p : Profile,
      get_info account_id
        (add_profile account_id display_string current_name account_age now
          profiles clients).1 = some p ∧
      p.isBan = false ∧ p.isMuted = false ∧
      p.canStartKickVote = true ∧ p.spamCount = 0 := by
  refine ⟨⟨.str display_string, [], current_name, false, false, account_age, now,
    true, 0, now, 0, 0⟩, ?_, rfl, rfl, rfl, rfl⟩
  simp only [get_info, add_profile]
  exact dictGet?_dictSet_self _ _ _

/-- C10: with a successfully loaded document that does not contain the
account id, `update_profile` called with only a display string silently
leaves the document unchanged, but called with a non-empty `allprofiles`
list, or with a name, it raises an unhandled KeyError instead — only the
display-string branch checks that the account exists. -/
theorem update_profile_guard_asymmetry (profiles : ProfilesDoc) (account_id : String)
    (h : dictMem profiles account_id = false) :
    (∀ ds : String,
      update_profile account_id (some ds) none none (some profiles) =
        .ok (some profiles)) ∧
    (∀ (q : String) (qs : List String),
      update_profile account_id none (some (q :: qs)) none (some profiles) =
        .error (.keyError account_id)) ∧
    (∀ nm : String,
      update_profile account_id none none (some nm) (some profiles) =
        .error (.keyError account_id)) := by
  have hg : dictGet? profiles account_id = none := dictGet?_eq_none_of_not_mem _ _ h
  refine ⟨?_, ?_, ?_⟩
  · intro ds
    simp only [update_profile, upDisplay, upAllProfiles, upName, hg]
  · intro q qs
    simp only [update_profile, upDisplay, upAllProfiles, upProfilesLoop, upName, hg]
  · intro nm
    simp only [update_profile, upDisplay, upAllProfiles, upName, hg]

theorem update_profile_guard_asymmetry_witness :
    dictMem exDoc "zz" = false ∧
    update_profile "zz" (some "d") none none (some exDoc) = .ok (some exDoc) ∧
    update_profile "zz" none (some ["x"]) none (some exDoc) =
      .error (.keyError "zz") ∧
    update_profile "zz" none none (some "nm") (some exDoc) =
      .error (.keyError "zz") := by
  have h := update_profile_guard_asymmetry exDoc "zz" (by decide)
  exact ⟨by decide, h.1 "d", h.2.1 "x" [], h.2.2 "nm"⟩

/-! ## WhitelistLoader (`load_white_list`, C9) -/

/-- Process state of the whitelist: `CacheData.whitelist` and the
`whitelist.json` document (a sequence of account ids). -/
structure WhitelistState where
  cache : List String
  storage : List String
  deriving DecidableEq, Repr

/-- `load_white_list` (pdata.py 536–541): read the whitelist document and
append every entry to `CacheData.whitelist`; storage is never written. -/
def load_white_list (s : WhitelistState) : WhitelistState :=
  { s with
    cache := s.storage.foldl (fun whitelist account_id => whitelist ++ [account_id]) s.cache }

/-- `n` successive `load_white_list` calls. -/
def loadN : Nat → WhitelistState → WhitelistState
  | 0, s => s
  | n + 1, s => loadN n (load_white_list s)

theorem foldl_append_eq (l : List String) :
    ∀ acc : List String, l.foldl (fun whitelist a => whitelist ++ [a]) acc = acc ++ l := by
  induction l with
  | nil => intro acc; simp
  | cons a rest ih =>
    intro acc
    simp only [List.foldl_cons, ih]
    simp

theorem flatten_replicate_length (n : Nat) (l : List String) :
    (List.replicate n l).flatten.length = n * l.length := by
  induction n with
  | zero => simp
  | succ n ih =>
    simp only [List.replicate_succ, List.flatten_cons, List.length_append, ih]
    ring

/-- C9: each `load_white_list` call appends the whole stored whitelist to
the cache without deduplication, so `n` calls leave the cache equal to the
old cache followed by `n` copies of the document (`n * k` entries over a
`k`-entry document when starting empty), and storage is never written. -/
theorem load_white_list_duplicates (s : WhitelistState) (n : Nat) :
    (loadN n s).storage = s.storage ∧
    (loadN n s).cache = s.cache ++ (List.replicate n s.storage).flatten ∧
    (loadN n s).cache.length = s.cache.length + n * s.storage.length := by
  have key : ∀ (m : Nat) (t : WhitelistState),
      (loadN m t).storage = t.storage ∧
      (loadN m t).cache = t.cache ++ (List.replicate m t.storage).flatten := by
    intro m
    induction m with
    | zero => intro t; simp [loadN]
    | succ m ih =>
      intro t
      have h1 := ih (load_white_list t)
      have hst : (load_white_list t).storage = t.storage := rfl
      have hca : (load_white_list t).cache = t.cache ++ t.storage :=
        foldl_append_eq t.storage t.cache
      constructor
      · show (loadN m (load_white_list t)).storage = t.storage
        rw [h1.1, hst]
      · show (loadN m (load_white_list t)).cache =
          t.cache ++ (List.replicate (m + 1) t.storage).flatten
        rw [h1.2, hst, hca, List.replicate_succ, List.flatten_cons, List.append_assoc]
  obtain ⟨h1, h2⟩ := key n s
  refine ⟨h1, h2, ?_⟩
  rw [h2]
  simp [flatten_replicate_length]

end PData
